import Mathlib

/-!
# Verification of the rclone-exporter scheduling-and-aggregation engine

A shallow embedding of `src/main.go` of the `rclone-exporter` repository:
a process that periodically enumerates the top-level buckets of a set of
configured rclone remotes, counts the files and bytes in each bucket, and
publishes the results as Prometheus gauges.

The embedding follows the source closely:

* the two registered gauge vectors (`src/main.go:22-42`) become a registry
  mapping a `(metric name, remote label, bucket label)` key to its current
  value;
* `updateRemoteBuckets` (`src/main.go:60-105`) becomes a pure function over
  an abstract storage collaborator (modelling `fs.NewFs`, `ListDir` and
  `operations.Count`), threading an execution state that records the
  registry, the log lines emitted, and the collaborator calls made;
* the scheduler goroutine of `main` (`src/main.go:145-164`) becomes a trace
  of dispatch/wait events together with the single timeout context each
  round creates and shares between its per-remote goroutines;
* flag handling for `-remote` (`src/main.go:114-138`) becomes a pure
  parsing function.

Prometheus gauge values are IEEE-754 float64; every value written here is
the conversion `float64(size)` / `float64(files)` of a nonnegative integer
(`src/main.go:98-99`), so gauge values are modelled as the natural number
that the float64 rounding of the written integer denotes (`float64OfNat`).
-/

namespace RcloneExporter

/-! ## The metrics registry (src/main.go:22-42) -/

/-- Name of the bucket size gauge vector (src/main.go:25). -/
def sizeMetricName : String := "rclone_bucket_size_bytes"

/-- Name of the bucket file count gauge vector (src/main.go:32). -/
def fileCountMetricName : String := "rclone_bucket_file_count"

/-- The gauge vectors registered with the default Prometheus registry in
`init()` (src/main.go:39-42), each with its label names
(src/main.go:28, 35). -/
def registeredGaugeVecs : List (String × List String) :=
  [(sizeMetricName, ["remote", "bucket"]),
   (fileCountMetricName, ["remote", "bucket"])]

/-- A sample key: the metric family name together with the values of the
`remote` and `bucket` labels. -/
abbrev SampleKey := String × String × String

/-- The state of the two registered gauge vectors: the current value of each
existing child, or `none` for label combinations never written.
`GaugeVec.WithLabelValues(...).Set(v)` creates the child on first use and
replaces its value on every later use. -/
abbrev Registry := SampleKey → Option Nat

/-- The registry at process start: no children exist yet. -/
def Registry.empty : Registry := fun _ => none

/-- `WithLabelValues(...).Set(v)`: upsert the sample for key `k`. -/
def Registry.set (reg : Registry) (k : SampleKey) (v : Nat) : Registry :=
  fun k' => if k' = k then some v else reg k'

theorem Registry.set_apply (reg : Registry) (k k' : SampleKey) (v : Nat) :
    Registry.set reg k v k' = if k' = k then some v else reg k' := rfl

/-! ## float64 conversion (src/main.go:98-99)

`Set` takes a float64; the code passes `float64(size)` and `float64(files)`.
Go converts an integer to float64 by rounding to the nearest representable
value, ties to even, with a 53-bit significand.  For a natural number `n`
the result is the multiple of the unit in the last place nearest to `n`, so
it is again a natural number, computed here as `float64OfNat n`. -/

/-- Round `n` to the nearest multiple of `u`, ties to even multiples. -/
def roundToUlp (n u : Nat) : Nat :=
  let q := n / u
  let r := n % u
  if 2 * r < u then q * u
  else if u < 2 * r then (q + 1) * u
  else if q % 2 = 0 then q * u else (q + 1) * u

/-- Find the unit in the last place of `n` for a 53-bit significand: the
smallest power of two `u ≥ 2` with `n < 2 ^ 53 * u` (for `n > 2 ^ 53`).
The fuel of 64 covers every value of a 64-bit integer. -/
def ulpForAux : Nat → Nat → Nat → Nat
  | 0, _, u => u
  | fuel + 1, n, u => if n < 2 ^ 53 * u then u else ulpForAux fuel n (2 * u)

/-- The value of the IEEE-754 float64 nearest to the natural number `n`
(ties to even), i.e. the value Go's `float64(n)` conversion denotes. -/
def float64OfNat (n : Nat) : Nat :=
  if n ≤ 2 ^ 53 then n else roundToUlp n (ulpForAux 64 n 2)

theorem float64OfNat_exact (n : Nat) (h : n ≤ 2 ^ 53) : float64OfNat n = n := by
  unfold float64OfNat
  rw [if_pos h]

/-! ## The storage collaborator

The storage-abstraction calls `updateRemoteBuckets` makes, at their
interface boundary.  A handle is identified with the identifier string it
was opened from (`fs.NewFs` is deterministic within a round, and the code
only ever passes a handle straight to `ListDir` / `operations.Count`):

* `newFsOk id` — whether `fs.NewFs(ctx, id)` succeeds (src/main.go:62, 83);
* `listDir id` — the top-level directory names `ListDir` returns on the
  handle opened from `id`, i.e. `d.Remote()` of each entry
  (src/main.go:45-56, 69, 77);
* `count id` — the `(files, size, dirs)` triple `operations.Count` returns
  on the handle opened from `id` (src/main.go:91); the directory count is
  ignored by the code. -/

structure Collaborator where
  newFsOk : String → Bool
  listDir : String → Except String (List String)
  count : String → Except String (Nat × Nat × Nat)

/-- One log line, with the context the code attaches
(src/main.go:64, 71, 80, 85, 93, 100-103). -/
inductive LogEntry
  | errorNewFsRemote (remote : String)
  | errorListDir (remote : String)
  | errorNewFsBucket (bucketRemote : String)
  | errorCount (bucketRemote : String)
  | infoUpdated (bucketRemote : String) (size files : Nat)
  deriving DecidableEq, Repr

/-- One call into the storage collaborator. -/
inductive OracleCall
  | newFs (identifier : String)
  | listDirOn (identifier : String)
  | countOn (identifier : String)
  deriving DecidableEq, Repr

/-- Execution state threaded through `updateRemoteBuckets`: the registry,
the log lines emitted so far, and the collaborator calls made so far. -/
structure ExecState where
  reg : Registry
  log : List LogEntry
  calls : List OracleCall

/-- The state at process start: empty registry, nothing logged, no calls. -/
def ExecState.init : ExecState :=
  { reg := Registry.empty, log := [], calls := [] }

/-! ## updateRemoteBuckets (src/main.go:60-105) -/

/-- The body of the `for _, d := range dirs` loop (src/main.go:75-104):
derive `bucketRemote := remote + bucketName` (line 79), open an Fs for it
(line 83, `continue` on error), run `operations.Count` (line 91, `continue`
on error), and on success set the two gauges (lines 98-99) — size first,
then file count — and log the update. -/
def processBucket (c : Collaborator) (remote : String) (s : ExecState)
    (bucketName : String) : ExecState :=
  let bucketRemote := remote ++ bucketName
  let s := { s with calls := s.calls ++ [OracleCall.newFs bucketRemote] }
  if c.newFsOk bucketRemote then
    let s := { s with calls := s.calls ++ [OracleCall.countOn bucketRemote] }
    match c.count bucketRemote with
    | Except.error _ =>
        { s with log := s.log ++ [LogEntry.errorCount bucketRemote] }
    | Except.ok (files, size, _) =>
        { s with
          reg := ((s.reg.set (sizeMetricName, remote, bucketName)
                    (float64OfNat size)).set
                  (fileCountMetricName, remote, bucketName)
                  (float64OfNat files))
          log := s.log ++ [LogEntry.infoUpdated bucketRemote size files] }
  else
    { s with log := s.log ++ [LogEntry.errorNewFsBucket bucketRemote] }

/-- `updateRemoteBuckets` (src/main.go:60-105): open an Fs for the remote
(line 62; log and return on error), list its top-level directories
(line 69; log and return on error), then process each bucket in turn. -/
def updateRemoteBuckets (c : Collaborator) (remote : String)
    (s : ExecState) : ExecState :=
  let s := { s with calls := s.calls ++ [OracleCall.newFs remote] }
  if c.newFsOk remote then
    let s := { s with calls := s.calls ++ [OracleCall.listDirOn remote] }
    match c.listDir remote with
    | Except.error _ =>
        { s with log := s.log ++ [LogEntry.errorListDir remote] }
    | Except.ok dirs => dirs.foldl (processBucket c remote) s
  else
    { s with log := s.log ++ [LogEntry.errorNewFsRemote remote] }

/-- One poll round over all configured remotes.  In the code
(`updateRemotes`, src/main.go:107-112) the remotes run in concurrent
goroutines; since every gauge key carries its remote's label, distinct
remotes write disjoint keys, and this fold is the registry outcome of any
interleaving of a round in which the collaborator answers are fixed. -/
def runRound (c : Collaborator) (remotes : List String)
    (s : ExecState) : ExecState :=
  remotes.foldl (fun s r => updateRemoteBuckets c r s) s

/-- A sequence of poll rounds since process start; the collaborator (i.e.
the state of the backing stores) may differ from round to round, the
configured remotes cannot (src/main.go:135-138, parsed once). -/
def runRounds (cs : List Collaborator) (remotes : List String)
    (s : ExecState) : ExecState :=
  cs.foldl (fun s c => runRound c remotes s) s

/-! ## Values written to the registry -/

/-- The value the loop body writes for metric `m` at bucket `b` of `remote`,
if any: the gauges are written only when the bucket Fs opens and
`operations.Count` succeeds, and only under the two registered metric
names. -/
def bucketValue (c : Collaborator) (remote b m : String) : Option Nat :=
  if c.newFsOk (remote ++ b) then
    match c.count (remote ++ b) with
    | Except.error _ => none
    | Except.ok (files, size, _) =>
        if m = sizeMetricName then some (float64OfNat size)
        else if m = fileCountMetricName then some (float64OfNat files)
        else none
  else none

/-- The value one `updateRemoteBuckets` run on `remote` writes for metric
`m` at bucket `b`, if any: requires the remote Fs to open, the listing to
succeed and contain `b`, and then the bucket measurement to succeed. -/
def measuredValue (c : Collaborator) (remote b m : String) : Option Nat :=
  if c.newFsOk remote then
    match c.listDir remote with
    | Except.error _ => none
    | Except.ok dirs =>
        if b ∈ dirs then bucketValue c remote b m else none
  else none

/-- Whether the round with collaborator `c` successfully measures bucket
`b` of `remote`. -/
def measuredOk (c : Collaborator) (remote b : String) : Bool :=
  (measuredValue c remote b sizeMetricName).isSome

/-! ## Registry characterization lemmas -/

theorem sizeMetricName_ne_fileCountMetricName :
    sizeMetricName ≠ fileCountMetricName := by decide

/-- What one loop-body iteration does to an arbitrary sample. -/
theorem processBucket_reg (c : Collaborator) (r' : String) (s : ExecState)
    (d m r b : String) :
    (processBucket c r' s d).reg (m, r, b) =
      if r = r' ∧ b = d ∧ (bucketValue c r' d m).isSome = true then
        bucketValue c r' d m
      else s.reg (m, r, b) := by
  unfold processBucket bucketValue
  by_cases hfs : c.newFsOk (r' ++ d)
  · rw [if_pos hfs, if_pos hfs]
    cases hcount : c.count (r' ++ d) with
    | error e => simp
    | ok res =>
      obtain ⟨files, size, dc⟩ := res
      simp only [Registry.set_apply, Prod.mk.injEq]
      by_cases hm1 : m = sizeMetricName
      · have hm2 : m ≠ fileCountMetricName := by
          rw [hm1]; exact sizeMetricName_ne_fileCountMetricName
        by_cases hr : r = r' <;> by_cases hb : b = d <;>
          simp [hm1, hm2, hr, hb, sizeMetricName_ne_fileCountMetricName]
      · by_cases hm2 : m = fileCountMetricName
        · have hne : fileCountMetricName ≠ sizeMetricName :=
            Ne.symm sizeMetricName_ne_fileCountMetricName
          by_cases hr : r = r' <;> by_cases hb : b = d <;>
            simp [hm1, hm2, hr, hb, hne]
        · simp [hm1, hm2]
  · rw [if_neg hfs, if_neg hfs]
    simp

/-- The bucket loop only writes keys labeled with its own remote and with a
listed bucket name; every touched key gets the collaborator-determined
value. -/
theorem foldDirs_reg (c : Collaborator) (r' : String) (dirs : List String)
    (s : ExecState) (m r b : String) :
    ((dirs.foldl (processBucket c r') s).reg (m, r, b)) =
      if r = r' ∧ b ∈ dirs ∧ (bucketValue c r' b m).isSome = true then
        bucketValue c r' b m
      else s.reg (m, r, b) := by
  induction dirs generalizing s with
  | nil => simp
  | cons d tl ih =>
    rw [List.foldl_cons, ih]
    by_cases hr : r = r'
    · by_cases hsome : (bucketValue c r' b m).isSome = true
      · by_cases hbtl : b ∈ tl
        · simp [hr, hsome, hbtl]
        · rw [processBucket_reg]
          by_cases hbd : b = d
          · subst hbd
            simp [hr, hsome, hbtl]
          · simp [hr, hsome, hbtl, hbd]
      · rw [processBucket_reg]
        by_cases hbd : b = d
        · subst hbd
          simp [hr, hsome]
        · simp [hsome, hbd]
    · rw [processBucket_reg]
      simp [hr]

/-- What one `updateRemoteBuckets` run does to an arbitrary sample. -/
theorem updateRemoteBuckets_reg (c : Collaborator) (r' : String)
    (s : ExecState) (m r b : String) :
    (updateRemoteBuckets c r' s).reg (m, r, b) =
      if r = r' ∧ (measuredValue c r' b m).isSome = true then
        measuredValue c r' b m
      else s.reg (m, r, b) := by
  unfold updateRemoteBuckets measuredValue
  by_cases hfs : c.newFsOk r'
  · rw [if_pos hfs, if_pos hfs]
    cases hls : c.listDir r' with
    | error e => simp
    | ok dirs =>
      rw [foldDirs_reg]
      by_cases hb : b ∈ dirs
      · simp [hb]
      · simp [hb]
  · rw [if_neg hfs, if_neg hfs]
    simp

/-- What one full poll round does to an arbitrary sample: if the key's
remote is configured and its bucket is measured successfully this round,
the key holds the measured value; otherwise it is untouched. -/
theorem runRound_reg (c : Collaborator) (remotes : List String)
    (s : ExecState) (m r b : String) :
    (runRound c remotes s).reg (m, r, b) =
      if r ∈ remotes ∧ (measuredValue c r b m).isSome = true then
        measuredValue c r b m
      else s.reg (m, r, b) := by
  induction remotes generalizing s with
  | nil => simp [runRound]
  | cons h tl ih =>
    rw [runRound, List.foldl_cons]
    rw [show (tl.foldl (fun s r => updateRemoteBuckets c r s)
          (updateRemoteBuckets c h s)) =
        runRound c tl (updateRemoteBuckets c h s) from rfl, ih]
    rw [updateRemoteBuckets_reg]
    by_cases hsome : (measuredValue c r b m).isSome = true
    · by_cases hmem : r ∈ tl
      · simp [hsome, hmem]
      · by_cases hrh : r = h
        · subst hrh
          simp [hsome, hmem]
        · simp [hsome, hmem, hrh]
    · by_cases hrh : r = h
      · subst hrh
        simp [hsome]
      · simp [hsome, hrh]

/-! ## Multi-round characterization -/

/-- Last-write-wins value of metric `m` at bucket `b` of remote `r` over a
sequence of rounds: the most recent round that measured the bucket wins. -/
def roundsValue (cs : List Collaborator) (r b m : String) : Option Nat :=
  cs.foldl
    (fun acc c =>
      match measuredValue c r b m with
      | some v => some v
      | none => acc)
    none

theorem roundsValue_foldl (cs : List Collaborator) (r b m : String)
    (init : Option Nat) :
    cs.foldl
        (fun acc c =>
          match measuredValue c r b m with
          | some v => some v
          | none => acc)
        init =
      match roundsValue cs r b m with
      | some v => some v
      | none => init := by
  induction cs generalizing init with
  | nil => simp [roundsValue]
  | cons c tl ih =>
    rw [List.foldl_cons]
    rw [ih]
    conv_rhs => rw [roundsValue, List.foldl_cons, ih]
    cases hval : roundsValue tl r b m with
    | some v => rfl
    | none =>
      cases hmv : measuredValue c r b m with
      | some w => rfl
      | none => rfl

/-- What a sequence of rounds does to an arbitrary sample. -/
theorem runRounds_reg (cs : List Collaborator) (remotes : List String)
    (s : ExecState) (m r b : String) :
    (runRounds cs remotes s).reg (m, r, b) =
      if r ∈ remotes then
        match roundsValue cs r b m with
        | some v => some v
        | none => s.reg (m, r, b)
      else s.reg (m, r, b) := by
  induction cs generalizing s with
  | nil =>
    simp [runRounds, roundsValue]
  | cons c tl ih =>
    rw [runRounds, List.foldl_cons]
    rw [show (tl.foldl (fun s c => runRound c remotes s)
          (runRound c remotes s)) =
        runRounds tl remotes (runRound c remotes s) from rfl, ih]
    rw [runRound_reg]
    have hrv : roundsValue (c :: tl) r b m =
        match roundsValue tl r b m with
        | some v => some v
        | none => measuredValue c r b m := by
      rw [roundsValue, List.foldl_cons, roundsValue_foldl]
      cases roundsValue tl r b m with
      | some v => rfl
      | none => cases measuredValue c r b m <;> rfl
    rw [hrv]
    by_cases hmem : r ∈ remotes
    · cases hval : roundsValue tl r b m with
      | some v => simp [hmem]
      | none =>
        cases hmv : measuredValue c r b m with
        | some w => simp [hmem, hmv]
        | none => simp [hmem, hmv]
    · simp [hmem]

theorem roundsValue_eq_none_iff (cs : List Collaborator) (r b m : String) :
    roundsValue cs r b m = none ↔
      ∀ c ∈ cs, measuredValue c r b m = none := by
  induction cs with
  | nil => simp [roundsValue]
  | cons c tl ih =>
    rw [roundsValue, List.foldl_cons, roundsValue_foldl]
    constructor
    · intro h c' hc'
      cases hval : roundsValue tl r b m with
      | some v => rw [hval] at h; exact absurd h (by simp)
      | none =>
        rw [hval] at h
        rcases List.mem_cons.mp hc' with hh | htl
        · subst hh
          cases hmv : measuredValue c' r b m with
          | some w => rw [hmv] at h; exact absurd h (by simp)
          | none => rfl
        · exact (ih.mp hval) c' htl
    · intro h
      have htl : roundsValue tl r b m = none :=
        ih.mpr fun c' hc' => h c' (List.mem_cons_of_mem _ hc')
      rw [htl, h c (List.mem_cons_self _ _)]

/-! ## Shape lemmas for the written values -/

theorem bucketValue_metric_names (c : Collaborator) (remote b m : String)
    (h : (bucketValue c remote b m).isSome = true) :
    m = sizeMetricName ∨ m = fileCountMetricName := by
  by_cases h1 : m = sizeMetricName
  · exact Or.inl h1
  · by_cases h2 : m = fileCountMetricName
    · exact Or.inr h2
    · exfalso
      unfold bucketValue at h
      by_cases hfs : c.newFsOk (remote ++ b)
      · rw [if_pos hfs] at h
        cases hc : c.count (remote ++ b) with
        | error e => rw [hc] at h; simp at h
        | ok res =>
          obtain ⟨files, size, dc⟩ := res
          rw [hc] at h
          simp [h1, h2] at h
      · rw [if_neg hfs] at h; simp at h

theorem measuredValue_metric_names (c : Collaborator) (remote b m : String)
    (h : (measuredValue c remote b m).isSome = true) :
    m = sizeMetricName ∨ m = fileCountMetricName := by
  unfold measuredValue at h
  by_cases hfs : c.newFsOk remote
  · rw [if_pos hfs] at h
    cases hls : c.listDir remote with
    | error e => rw [hls] at h; simp at h
    | ok dirs =>
      rw [hls] at h
      dsimp only at h
      by_cases hb : b ∈ dirs
      · rw [if_pos hb] at h
        exact bucketValue_metric_names c remote b m h
      · rw [if_neg hb] at h; simp at h
  · rw [if_neg hfs] at h; simp at h

theorem bucketValue_isSome_pair (c : Collaborator) (remote b : String) :
    (bucketValue c remote b sizeMetricName).isSome =
      (bucketValue c remote b fileCountMetricName).isSome := by
  unfold bucketValue
  by_cases hfs : c.newFsOk (remote ++ b)
  · rw [if_pos hfs, if_pos hfs]
    cases hc : c.count (remote ++ b) with
    | error e => rfl
    | ok res =>
      obtain ⟨files, size, dc⟩ := res
      simp [sizeMetricName_ne_fileCountMetricName,
        Ne.symm sizeMetricName_ne_fileCountMetricName]
  · rw [if_neg hfs, if_neg hfs]

theorem measuredValue_isSome_pair (c : Collaborator) (remote b : String) :
    (measuredValue c remote b sizeMetricName).isSome =
      (measuredValue c remote b fileCountMetricName).isSome := by
  unfold measuredValue
  by_cases hfs : c.newFsOk remote
  · rw [if_pos hfs, if_pos hfs]
    cases hls : c.listDir remote with
    | error e => rfl
    | ok dirs =>
      dsimp only
      by_cases hb : b ∈ dirs
      · rw [if_pos hb, if_pos hb]
        exact bucketValue_isSome_pair c remote b
      · rw [if_neg hb, if_neg hb]
  · rw [if_neg hfs, if_neg hfs]

/-! ## Failure-path lemmas -/

theorem bucketValue_none_of_fail (c : Collaborator) (r' b : String)
    (hfail : c.newFsOk (r' ++ b) = false ∨
      ∃ msg, c.count (r' ++ b) = Except.error msg) (m : String) :
    bucketValue c r' b m = none := by
  unfold bucketValue
  rcases hfail with hfs | ⟨msg, hcnt⟩
  · rw [hfs]
    simp
  · by_cases hfs : c.newFsOk (r' ++ b)
    · rw [if_pos hfs, hcnt]
    · rw [if_neg hfs]

theorem measuredValue_none_of_bucketValue_none (c : Collaborator)
    (r' b m : String) (h : bucketValue c r' b m = none) :
    measuredValue c r' b m = none := by
  unfold measuredValue
  by_cases hfs : c.newFsOk r'
  · rw [if_pos hfs]
    cases hls : c.listDir r' with
    | error e => rfl
    | ok dirs =>
      dsimp only
      by_cases hb : b ∈ dirs
      · rw [if_pos hb, h]
      · rw [if_neg hb]
  · rw [if_neg hfs]

theorem measuredValue_none_of_remoteFail (c : Collaborator) (r' : String)
    (hfail : c.newFsOk r' = false ∨
      ∃ msg, c.listDir r' = Except.error msg) (b m : String) :
    measuredValue c r' b m = none := by
  unfold measuredValue
  rcases hfail with hfs | ⟨msg, hls⟩
  · rw [hfs]
    simp
  · by_cases hfs : c.newFsOk r'
    · rw [if_pos hfs, hls]
    · rw [if_neg hfs]

/-- A failing loop-body iteration changes no sample and appends exactly one
error line naming the bucket's qualified identifier. -/
theorem processBucket_fail (c : Collaborator) (r' : String) (s : ExecState)
    (d : String)
    (hfail : c.newFsOk (r' ++ d) = false ∨
      ∃ msg, c.count (r' ++ d) = Except.error msg) :
    (processBucket c r' s d).reg = s.reg ∧
      ∃ e, (processBucket c r' s d).log = s.log ++ [e] ∧
        (e = LogEntry.errorNewFsBucket (r' ++ d) ∨
          e = LogEntry.errorCount (r' ++ d)) := by
  unfold processBucket
  by_cases hfs : c.newFsOk (r' ++ d)
  · rcases hfail with hf | ⟨msg, hcnt⟩
    · rw [hf] at hfs
      exact absurd hfs (by simp)
    · rw [if_pos hfs, hcnt]
      exact ⟨rfl, LogEntry.errorCount (r' ++ d), rfl, Or.inr rfl⟩
  · rw [if_neg hfs]
    exact ⟨rfl, LogEntry.errorNewFsBucket (r' ++ d), rfl, Or.inl rfl⟩

/-- A remote whose Fs cannot be opened, or whose listing fails, changes no
sample and appends exactly one error line naming the remote. -/
theorem updateRemoteBuckets_fail (c : Collaborator) (r' : String)
    (s : ExecState)
    (hfail : c.newFsOk r' = false ∨
      ∃ msg, c.listDir r' = Except.error msg) :
    (updateRemoteBuckets c r' s).reg = s.reg ∧
      ∃ e, (updateRemoteBuckets c r' s).log = s.log ++ [e] ∧
        (e = LogEntry.errorNewFsRemote r' ∨ e = LogEntry.errorListDir r') := by
  unfold updateRemoteBuckets
  by_cases hfs : c.newFsOk r'
  · rcases hfail with hf | ⟨msg, hls⟩
    · rw [hf] at hfs
      exact absurd hfs (by simp)
    · rw [if_pos hfs, hls]
      exact ⟨rfl, LogEntry.errorListDir r', rfl, Or.inr rfl⟩
  · rw [if_neg hfs]
    exact ⟨rfl, LogEntry.errorNewFsRemote r', rfl, Or.inl rfl⟩

/-! ## Collaborator-call traces -/

/-- The collaborator calls one loop-body iteration makes for bucket `d`:
`fs.NewFs` on `remote + d` always (src/main.go:83), and `operations.Count`
on the same identifier when the open succeeded (src/main.go:91). -/
def bucketCalls (c : Collaborator) (r' d : String) : List OracleCall :=
  OracleCall.newFs (r' ++ d) ::
    (if c.newFsOk (r' ++ d) then [OracleCall.countOn (r' ++ d)] else [])

/-- The collaborator calls of the whole bucket loop, in order. -/
def dirsCalls (c : Collaborator) (r' : String) : List String → List OracleCall
  | [] => []
  | d :: tl => bucketCalls c r' d ++ dirsCalls c r' tl

theorem processBucket_calls (c : Collaborator) (r' : String) (s : ExecState)
    (d : String) :
    (processBucket c r' s d).calls = s.calls ++ bucketCalls c r' d := by
  unfold processBucket bucketCalls
  by_cases hfs : c.newFsOk (r' ++ d)
  · rw [if_pos hfs, if_pos hfs]
    cases hcnt : c.count (r' ++ d) with
    | error e => simp
    | ok res =>
      obtain ⟨files, size, dc⟩ := res
      simp
  · rw [if_neg hfs, if_neg hfs]

theorem foldDirs_calls (c : Collaborator) (r' : String) (dirs : List String)
    (s : ExecState) :
    (dirs.foldl (processBucket c r') s).calls =
      s.calls ++ dirsCalls c r' dirs := by
  induction dirs generalizing s with
  | nil => simp [dirsCalls]
  | cons d tl ih =>
    rw [List.foldl_cons, ih, processBucket_calls, dirsCalls,
      List.append_assoc]

theorem updateRemoteBuckets_calls (c : Collaborator) (r' : String)
    (s : ExecState) :
    (updateRemoteBuckets c r' s).calls =
      s.calls ++ OracleCall.newFs r' ::
        (if c.newFsOk r' then
          OracleCall.listDirOn r' ::
            (match c.listDir r' with
             | Except.ok dirs => dirsCalls c r' dirs
             | Except.error _ => [])
         else []) := by
  unfold updateRemoteBuckets
  by_cases hfs : c.newFsOk r'
  · rw [if_pos hfs, if_pos hfs]
    cases hls : c.listDir r' with
    | error e => simp
    | ok dirs =>
      dsimp only
      rw [foldDirs_calls]
      simp
  · rw [if_neg hfs, if_neg hfs]

theorem countOn_mem_dirsCalls (c : Collaborator) (r' : String)
    (dirs : List String) (id : String) :
    OracleCall.countOn id ∈ dirsCalls c r' dirs ↔
      ∃ b ∈ dirs, id = r' ++ b ∧ c.newFsOk (r' ++ b) = true := by
  induction dirs with
  | nil => simp [dirsCalls]
  | cons d tl ih =>
    rw [dirsCalls]
    simp only [List.mem_append, ih, bucketCalls, List.mem_cons]
    constructor
    · rintro (h | h)
      · rcases h with h | h
        · exact absurd h (by simp)
        · by_cases hfs : c.newFsOk (r' ++ d)
          · rw [if_pos hfs] at h
            simp only [List.mem_singleton] at h
            injection h with hid
            exact ⟨d, Or.inl rfl, hid, hfs⟩
          · rw [if_neg hfs] at h
            exact absurd h (by simp)
      · rcases h with ⟨b, hb, hid, hfs⟩
        exact ⟨b, Or.inr hb, hid, hfs⟩
    · rintro ⟨b, hb, hid, hfs⟩
      rcases hb with hb | hb
      · subst hb
        exact Or.inl (Or.inr (by rw [if_pos hfs, hid]; simp))
      · exact Or.inr ⟨b, hb, hid, hfs⟩

theorem newFs_mem_dirsCalls (c : Collaborator) (r' : String)
    (dirs : List String) (id : String) :
    OracleCall.newFs id ∈ dirsCalls c r' dirs ↔ ∃ b ∈ dirs, id = r' ++ b := by
  induction dirs with
  | nil => simp [dirsCalls]
  | cons d tl ih =>
    rw [dirsCalls]
    simp only [List.mem_append, ih, bucketCalls, List.mem_cons]
    constructor
    · rintro (h | h)
      · rcases h with h | h
        · injection h with hid
          exact ⟨d, Or.inl rfl, hid⟩
        · by_cases hfs : c.newFsOk (r' ++ d)
          · rw [if_pos hfs] at h
            simp at h
          · rw [if_neg hfs] at h
            exact absurd h (by simp)
      · rcases h with ⟨b, hb, hid⟩
        exact ⟨b, Or.inr hb, hid⟩
    · rintro ⟨b, hb, hid⟩
      rcases hb with hb | hb
      · subst hb
        exact Or.inl (Or.inl (by rw [hid]))
      · exact Or.inr ⟨b, hb, hid⟩

/-! ## The scheduler goroutine (src/main.go:145-164)

The goroutine creates a ticker for the update period, runs one update
immediately, and then runs one update per ticker fire.  Each update is the
three statements

```go
ctxTimeout, cancel := context.WithTimeout(ctx, timeout)
updateRemotes(ctxTimeout, remotes)
cancel()
```

`context.WithTimeout` creates ONE context whose deadline is `now + timeout`;
`updateRemotes` (src/main.go:107-112) hands this same context to every
per-remote goroutine it spawns with `go` and returns without blocking (the
goroutines are never joined); `cancel()` therefore executes at dispatch
time, cancelling the round's shared context immediately.  Nothing in the
goroutine inspects or stores the outcome of any unit. -/

/-- One poll-round dispatch: the single shared timeout context the round
creates (its creation time, deadline, and the time `cancel()` is called on
it) together with the remotes whose goroutines all receive that one
context. -/
structure RoundDispatch where
  startedAt : Nat
  ctxDeadline : Nat
  ctxCancelledAt : Nat
  unitRemotes : List String
  deriving DecidableEq, Repr

/-- Dispatch one round at time `now` (src/main.go:150-152 and 157-159):
the context deadline is `now + timeout`; since `updateRemotes` only spawns
goroutines, the `cancel()` on the following line runs at `now`. -/
def dispatchRound (now timeout : Nat) (remotes : List String) :
    RoundDispatch :=
  { startedAt := now
    ctxDeadline := now + timeout
    ctxCancelledAt := now
    unitRemotes := remotes }

/-- Time at which the scheduler goroutine is back at its `select` after a
round dispatched at `now`: the dispatch executes no blocking statement
(`go` returns immediately), so the loop re-enters `select` at `now`
itself, whatever the time `unitReturnsAt` at which each spawned unit
actually finishes. -/
def idleEntryTime (now : Nat) (remotes : List String)
    (unitReturnsAt : String → Nat) : Nat := now

/-- The per-unit failures the scheduler loop records for a round: the
goroutine of src/main.go:146-164 holds no variable receiving any unit's
outcome, so nothing is ever recorded, whichever units `unitFailed` marks
as having failed or timed out. -/
def recordedFailures (d : RoundDispatch) (unitFailed : String → Bool) :
    List String := []

/-- Observable scheduler events: dispatching a round, and blocking in
`select` waiting for the next ticker fire. -/
inductive SchedEvent
  | dispatch (d : RoundDispatch)
  | waitForTick
  deriving DecidableEq, Repr

/-- The `for { select { ... } }` loop (src/main.go:154-163) as observed for
`n` ticker fires after a round dispatched at `now`: wait for the tick
(which fires one period after the previous one), dispatch, repeat.  The
`ctx.Done()` branch never fires (`ctx` is `context.Background()`,
src/main.go:141). -/
def schedulerLoop (now period timeout : Nat) (remotes : List String) :
    Nat → List SchedEvent
  | 0 => []
  | n + 1 =>
      SchedEvent.waitForTick ::
        SchedEvent.dispatch (dispatchRound (now + period) timeout remotes) ::
          schedulerLoop (now + period) period timeout remotes n

/-- The whole scheduler goroutine, observed from its start at `startAt`
until the `n`-th ticker fire: an immediate dispatch (src/main.go:149-152,
before the loop is entered), then the ticker loop. -/
def schedulerRun (startAt period timeout : Nat) (remotes : List String)
    (n : Nat) : List SchedEvent :=
  SchedEvent.dispatch (dispatchRound startAt timeout remotes) ::
    schedulerLoop startAt period timeout remotes n

/-- The two logical states of the scheduler: dispatching a round, or
blocked in `select`. -/
inductive SchedPhase
  | polling
  | idle
  deriving DecidableEq, Repr

/-- The state the scheduler goroutine starts in: its first statement
(src/main.go:149-151) runs an update, before the first `select`. -/
def initialSchedPhase : SchedPhase := SchedPhase.polling

/-- The start times of the rounds a scheduler event trace dispatches. -/
def dispatchTimesOf (es : List SchedEvent) : List Nat :=
  es.filterMap fun e =>
    match e with
    | SchedEvent.dispatch d => some d.startedAt
    | SchedEvent.waitForTick => none

/-- Whether an event is a round dispatch. -/
def isDispatch : SchedEvent → Bool
  | SchedEvent.dispatch _ => true
  | SchedEvent.waitForTick => false

theorem schedulerLoop_dispatchTimes (period timeout : Nat)
    (remotes : List String) (n : Nat) :
    ∀ now, dispatchTimesOf (schedulerLoop now period timeout remotes n) =
      (List.range n).map fun i => now + (i + 1) * period := by
  induction n with
  | zero => intro now; simp [schedulerLoop, dispatchTimesOf]
  | succ n ih =>
    intro now
    rw [schedulerLoop]
    have hstep : dispatchTimesOf
        (SchedEvent.waitForTick ::
          SchedEvent.dispatch (dispatchRound (now + period) timeout remotes) ::
            schedulerLoop (now + period) period timeout remotes n) =
        (now + period) ::
          dispatchTimesOf
            (schedulerLoop (now + period) period timeout remotes n) := by
      simp [dispatchTimesOf, dispatchRound]
    rw [hstep, ih (now + period), List.range_succ_eq_map]
    simp only [List.map_cons, List.map_map]
    refine congrArg₂ _ (by ring) ?_
    refine List.map_congr_left fun i _ => ?_
    simp only [Function.comp_apply, Nat.succ_eq_add_one]
    ring

/-- Every event in the ticker loop that follows a dispatch is a wait (or
the observation ends): the loop never blocks on the units it spawned. -/
theorem schedulerLoop_after_dispatch (period timeout : Nat)
    (remotes : List String) (n : Nat) :
    ∀ now i d,
      (schedulerLoop now period timeout remotes n).get? i =
          some (SchedEvent.dispatch d) →
        (schedulerLoop now period timeout remotes n).get? (i + 1) =
            some SchedEvent.waitForTick ∨
          (schedulerLoop now period timeout remotes n).get? (i + 1) = none := by
  induction n with
  | zero =>
    intro now i d h
    simp [schedulerLoop] at h
  | succ n ih =>
    intro now i d h
    match i with
    | 0 => simp [schedulerLoop] at h
    | 1 =>
      rw [schedulerLoop]
      cases n with
      | zero => right; rfl
      | succ n' => left; rfl
    | Nat.succ (Nat.succ j) =>
      rw [schedulerLoop] at h ⊢
      simp only [List.get?_cons_succ] at h ⊢
      exact ih (now + period) j d h

/-- The head of the loop is a wait or nothing — never a dispatch. -/
theorem schedulerLoop_head (now period timeout : Nat)
    (remotes : List String) (n : Nat) :
    (schedulerLoop now period timeout remotes n).get? 0 =
        some SchedEvent.waitForTick ∨
      (schedulerLoop now period timeout remotes n).get? 0 = none := by
  cases n with
  | zero => right; rfl
  | succ n' => left; rfl

theorem schedulerLoop_dispatch_count (period timeout : Nat)
    (remotes : List String) (n : Nat) :
    ∀ now, (schedulerLoop now period timeout remotes n).countP isDispatch = n := by
  induction n with
  | zero => intro now; simp [schedulerLoop]
  | succ n ih =>
    intro now
    rw [schedulerLoop]
    rw [List.countP_cons, List.countP_cons, ih (now + period)]
    simp [isDispatch]

/-! ## Flag parsing (src/main.go:114-138) -/

/-- Go's `unicode.IsSpace`, the character class `strings.TrimSpace` trims:
ASCII whitespace, NEL, NBSP, and the Unicode space separators. -/
def goIsSpace (c : Char) : Bool :=
  c == '\t' || c == '\n' || c == '\x0B' || c == '\x0C' || c == '\r' ||
    c == ' ' || c == '\u0085' || c == '\u00A0' || c == '\u1680' ||
    (decide ('\u2000' ≤ c) && decide (c ≤ '\u200A')) || c == '\u2028' ||
    c == '\u2029' || c == '\u202F' || c == '\u205F' || c == '\u3000'

/-- Go's `strings.TrimSpace`: drop leading and trailing space characters. -/
def goTrimSpace (s : String) : String :=
  String.mk (((s.toList.dropWhile goIsSpace).reverse.dropWhile
    goIsSpace).reverse)

/-- Go's `strings.Split(s, ",")` on the character list: every comma is a
field boundary, and the empty input yields one empty field. -/
def splitOnComma : List Char → List (List Char)
  | [] => [[]]
  | ',' :: rest => [] :: splitOnComma rest
  | c :: rest =>
      match splitOnComma rest with
      | [] => [[c]]
      | f :: fs => (c :: f) :: fs

/-- `strings.Split(flagValue, ",")` (src/main.go:136). -/
def goSplitComma (s : String) : List String :=
  (splitOnComma s.toList).map String.mk

/-- The remote-list construction loop (src/main.go:135-138): start from the
empty slice and append the trimmed form of every comma-separated field. -/
def parseRemotes (flagValue : String) : List String :=
  (goSplitComma flagValue).foldl (fun acc remote => acc ++ [goTrimSpace remote]) []

/-- The `-remote` flag handling in `main` (src/main.go:127-138): an empty
flag value is fatal (`logrus.Fatal`, modelled as `none`); any other value
is split on commas and each field trimmed. -/
def configureRemotes (flagValue : String) : Option (List String) :=
  if flagValue = "" then none else some (parseRemotes flagValue)

theorem parseRemotes_eq_map (flagValue : String) :
    parseRemotes flagValue = (goSplitComma flagValue).map goTrimSpace := by
  unfold parseRemotes
  generalize goSplitComma flagValue = fields
  induction fields using List.reverseRecOn with
  | nil => rfl
  | append_singleton fs f ih =>
    rw [List.foldl_append, List.map_append, ih]
    rfl

/-! ## Concrete collaborators for witnesses and counterexamples -/

/-- A backend with one remote `a:` holding one bucket `x` with 10 files and
1000 bytes. -/
def cSimple : Collaborator :=
  { newFsOk := fun _ => true
    listDir := fun rid =>
      if rid = "a:" then Except.ok ["x"] else Except.error "unknown remote"
    count := fun rid =>
      if rid = "a:x" then Except.ok (10, 1000, 0)
      else Except.error "unknown bucket" }

/-- A backend where bucket `x` of remote `a:` counts fine but its sibling
`y` fails to count. -/
def cSibling : Collaborator :=
  { newFsOk := fun _ => true
    listDir := fun rid =>
      if rid = "a:" then Except.ok ["x", "y"] else Except.error "unknown remote"
    count := fun rid =>
      if rid = "a:x" then Except.ok (10, 1000, 0)
      else Except.error "count failed" }

/-- A backend whose bucket `x` holds `2 ^ 53 + 1` files — one more than
float64 can represent exactly. -/
def cBig : Collaborator :=
  { newFsOk := fun _ => true
    listDir := fun rid =>
      if rid = "a:" then Except.ok ["x"] else Except.error "unknown remote"
    count := fun rid =>
      if rid = "a:x" then Except.ok (9007199254740993, 1000, 0)
      else Except.error "unknown bucket" }

/-- A backend where remote `b:` cannot be opened while remote `a:` works. -/
def cDown : Collaborator :=
  { newFsOk := fun rid => !(rid == "b:")
    listDir := fun rid =>
      if rid = "a:" then Except.ok ["x"] else Except.error "unknown remote"
    count := fun rid =>
      if rid = "a:x" then Except.ok (10, 1000, 0)
      else Except.error "unknown bucket" }

theorem measuredValue_none_pair (c : Collaborator) (r b : String) :
    measuredValue c r b sizeMetricName = none ↔
      measuredValue c r b fileCountMetricName = none := by
  have hp := measuredValue_isSome_pair c r b
  constructor <;> intro h <;> rw [h] at hp
  · cases hmv : measuredValue c r b fileCountMetricName with
    | none => rfl
    | some v => rw [hmv] at hp; simp at hp
  · cases hmv : measuredValue c r b sizeMetricName with
    | none => rfl
    | some v => rw [hmv] at hp; simp at hp

theorem roundsValue_ne_none_iff (cs : List Collaborator) (r b m : String) :
    roundsValue cs r b m ≠ none ↔
      ∃ c ∈ cs, measuredValue c r b m ≠ none := by
  rw [Ne, roundsValue_eq_none_iff]
  push_neg
  rfl

/-! ## Claim C1 -/

/-- C1 (counterexample): the code's metric names are
`rclone_bucket_size_bytes` / `rclone_bucket_file_count`, not the
`storage_bucket_*` names the claim states: after one round that
successfully observes bucket `x` of remote `a:`, the registry holds no
sample under either `storage_*` name for that pair, while it does hold the
size under the `rclone_*` name; no registered gauge vector bears a
`storage_*` name. -/
theorem claim1_counterexample :
    measuredOk cSimple "a:" "x" = true
  ∧ (runRounds [cSimple] ["a:"] ExecState.init).reg
      ("storage_bucket_size_bytes", "a:", "x") = none
  ∧ (runRounds [cSimple] ["a:"] ExecState.init).reg
      ("storage_bucket_file_count", "a:", "x") = none
  ∧ (runRounds [cSimple] ["a:"] ExecState.init).reg
      ("rclone_bucket_size_bytes", "a:", "x") = some 1000
  ∧ ((registeredGaugeVecs.map Prod.fst).contains
      "storage_bucket_size_bytes" = false)
  ∧ ((registeredGaugeVecs.map Prod.fst).contains
      "storage_bucket_file_count" = false) := by
  decide

/-- C1 (amended): the program publishes exactly two gauge metrics, named
`rclone_bucket_size_bytes` and `rclone_bucket_file_count`, each labeled by
(remote, bucket); starting from the empty registry, a sample exists for a
key exactly when its metric is one of these two names, its remote is
configured, and some round since process start successfully measured that
(remote, bucket) pair — and the two samples of a pair exist together. -/
theorem claim1_metrics_amended (cs : List Collaborator)
    (remotes : List String) (m r b : String) :
    ((runRounds cs remotes ExecState.init).reg (m, r, b) ≠ none →
        m = sizeMetricName ∨ m = fileCountMetricName)
  ∧ ((runRounds cs remotes ExecState.init).reg (sizeMetricName, r, b) ≠ none ↔
        r ∈ remotes ∧ ∃ c ∈ cs, measuredOk c r b = true)
  ∧ ((runRounds cs remotes ExecState.init).reg (sizeMetricName, r, b) ≠ none ↔
        (runRounds cs remotes ExecState.init).reg
          (fileCountMetricName, r, b) ≠ none)
  ∧ registeredGaugeVecs =
      [(sizeMetricName, ["remote", "bucket"]),
       (fileCountMetricName, ["remote", "bucket"])] := by
  have hinit : ∀ m' r' b', (ExecState.init).reg (m', r', b') = none := by
    intro m' r' b'; rfl
  refine ⟨?_, ?_, ?_, rfl⟩
  · intro h
    rw [runRounds_reg] at h
    by_cases hmem : r ∈ remotes
    · rw [if_pos hmem] at h
      cases hval : roundsValue cs r b m with
      | none => rw [hval, hinit] at h; exact absurd rfl h
      | some v =>
        have hne : roundsValue cs r b m ≠ none := by rw [hval]; simp
        rcases (roundsValue_ne_none_iff cs r b m).mp hne with ⟨c, hc, hmv⟩
        exact measuredValue_metric_names c r b m
          (Option.isSome_iff_ne_none.mpr hmv)
    · rw [if_neg hmem, hinit] at h
      exact absurd rfl h
  · rw [runRounds_reg]
    by_cases hmem : r ∈ remotes
    · rw [if_pos hmem]
      constructor
      · intro h
        cases hval : roundsValue cs r b sizeMetricName with
        | none => rw [hval, hinit] at h; exact absurd rfl h
        | some v =>
          have hne : roundsValue cs r b sizeMetricName ≠ none := by
            rw [hval]; simp
          rcases (roundsValue_ne_none_iff cs r b sizeMetricName).mp hne with
            ⟨c, hc, hmv⟩
          exact ⟨hmem, c, hc, by
            rw [measuredOk, Option.isSome_iff_ne_none]; exact hmv⟩
      · rintro ⟨-, c, hc, hok⟩
        have hmv : measuredValue c r b sizeMetricName ≠ none := by
          rw [measuredOk] at hok
          exact Option.isSome_iff_ne_none.mp hok
        have hne : roundsValue cs r b sizeMetricName ≠ none :=
          (roundsValue_ne_none_iff cs r b sizeMetricName).mpr ⟨c, hc, hmv⟩
        cases hval : roundsValue cs r b sizeMetricName with
        | none => exact absurd hval hne
        | some v => simp
    · rw [if_neg hmem, hinit]
      simp [hmem]
  · rw [runRounds_reg, runRounds_reg]
    by_cases hmem : r ∈ remotes
    · rw [if_pos hmem, if_pos hmem]
      have hpair : roundsValue cs r b sizeMetricName = none ↔
          roundsValue cs r b fileCountMetricName = none := by
        rw [roundsValue_eq_none_iff, roundsValue_eq_none_iff]
        constructor <;> intro h c hc
        · exact (measuredValue_none_pair c r b).mp (h c hc)
        · exact (measuredValue_none_pair c r b).mpr (h c hc)
      cases hs : roundsValue cs r b sizeMetricName with
      | none =>
        have hf := hpair.mp hs
        rw [hf]
        simp [hinit]
      | some v =>
        cases hf : roundsValue cs r b fileCountMetricName with
        | none =>
          have hcontra := hpair.mpr hf
          rw [hs] at hcontra
          exact absurd hcontra (by simp)
        | some w => simp
    · rw [if_neg hmem, if_neg hmem, hinit, hinit]

/-- C1 (witness): instantiating the amended claim: after one successful
round on `cSimple`, the size sample for `(a:, x)` exists. -/
theorem claim1_witness :
    (runRounds [cSimple] ["a:"] ExecState.init).reg
      (sizeMetricName, "a:", "x") ≠ none :=
  (claim1_metrics_amended [cSimple] ["a:"] sizeMetricName "a:" "x").2.1.mpr
    ⟨by simp, cSimple, by simp, by decide⟩

/-! ## Claim C2 -/

/-- C2 (code at the failing input): dispatching the startup round at t=0
with `-remote a:,b:` and `-remote-timeout 30` creates one context shared by
both per-remote units, with deadline 30 — and `cancel()` runs at t=0,
before the deadline, because `updateRemotes` returns as soon as the two
goroutines are spawned.  The units are therefore not bound to their own
`now + timeout` deadlines, and cancelling the single shared context
affects both of them at once. -/
theorem claim2_shared_context_cancelled_at_dispatch :
    (dispatchRound 0 30 ["a:", "b:"]).unitRemotes = ["a:", "b:"]
  ∧ (dispatchRound 0 30 ["a:", "b:"]).ctxDeadline = 30
  ∧ (dispatchRound 0 30 ["a:", "b:"]).ctxCancelledAt = 0
  ∧ (dispatchRound 0 30 ["a:", "b:"]).ctxCancelledAt <
      (dispatchRound 0 30 ["a:", "b:"]).ctxDeadline := by
  decide

/-! ## Claim C3 -/

/-- C3 (counterexample): the scheduler transitions to Idle without waiting
for the per-remote units: with one remote whose unit returns at t=10, the
loop is back at its `select` at t=0 — before the unit has returned — and
even a unit marked as failed leaves no recorded failure. -/
theorem claim3_counterexample :
    idleEntryTime 0 ["a:"] (fun _ => 10) = 0
  ∧ idleEntryTime 0 ["a:"] (fun _ => 10) < 10
  ∧ recordedFailures (dispatchRound 0 30 ["a:"]) (fun _ => true) = [] := by
  decide

/-- C3 (amended): round dispatch is fire-and-forget: immediately after any
dispatch the scheduler's next observable action is waiting for the next
tick (or the observation ends) — it never waits on the units it spawned
(the time it re-enters `select` is the dispatch time, independent of when
any unit returns), and it records no per-unit failures.  A unit exceeding
the round's shared context deadline is simply cancelled by that context,
invisible to the scheduler. -/
theorem claim3_fire_and_forget_amended (startAt period timeout n : Nat)
    (remotes : List String) (unitReturnsAt : String → Nat)
    (unitFailed : String → Bool) (i : Nat) (d : RoundDispatch)
    (hd : (schedulerRun startAt period timeout remotes n).get? i =
        some (SchedEvent.dispatch d)) :
    ((schedulerRun startAt period timeout remotes n).get? (i + 1) =
        some SchedEvent.waitForTick ∨
      (schedulerRun startAt period timeout remotes n).get? (i + 1) = none)
  ∧ idleEntryTime d.startedAt remotes unitReturnsAt = d.startedAt
  ∧ recordedFailures d unitFailed = [] := by
  refine ⟨?_, rfl, rfl⟩
  match i with
  | 0 =>
    rw [schedulerRun]
    exact schedulerLoop_head startAt period timeout remotes n
  | Nat.succ j =>
    rw [schedulerRun] at hd ⊢
    rw [List.get?_cons_succ] at hd
    rw [List.get?_cons_succ]
    exact schedulerLoop_after_dispatch period timeout remotes n startAt j d hd

/-- C3 (witness): instantiating the amended claim at the startup dispatch
of a one-tick run. -/
theorem claim3_witness :
    (schedulerRun 0 60 30 ["a:"] 1).get? 1 = some SchedEvent.waitForTick ∨
      (schedulerRun 0 60 30 ["a:"] 1).get? 1 = none :=
  (claim3_fire_and_forget_amended 0 60 30 1 ["a:"] (fun _ => 10)
    (fun _ => true) 0 (dispatchRound 0 30 ["a:"]) (by rfl)).1

/-! ## Claim C4 -/

/-- C4: a container whose count fails (its bucket Fs cannot be opened, or
`operations.Count` errors) is logged and skipped: the failing loop
iteration leaves every sample of every container — including the failed
container's own prior sample — unchanged and appends exactly one error line
for the bucket; the enclosing `updateRemoteBuckets` run still gives every
sibling container its measured value, and leaves the failed container's
samples untouched. -/
theorem claim4_container_failure_isolated (c : Collaborator)
    (remote bucket : String) (s : ExecState)
    (hfail : c.newFsOk (remote ++ bucket) = false ∨
      ∃ msg, c.count (remote ++ bucket) = Except.error msg) :
    (processBucket c remote s bucket).reg = s.reg
  ∧ (∃ e, (processBucket c remote s bucket).log = s.log ++ [e] ∧
      (e = LogEntry.errorNewFsBucket (remote ++ bucket) ∨
        e = LogEntry.errorCount (remote ++ bucket)))
  ∧ (∀ m, (updateRemoteBuckets c remote s).reg (m, remote, bucket) =
      s.reg (m, remote, bucket))
  ∧ (∀ m b', (updateRemoteBuckets c remote s).reg (m, remote, b') =
      if (measuredValue c remote b' m).isSome = true then
        measuredValue c remote b' m
      else s.reg (m, remote, b')) := by
  obtain ⟨hreg, hlog⟩ := processBucket_fail c remote s bucket hfail
  refine ⟨hreg, hlog, ?_, ?_⟩
  · intro m
    rw [updateRemoteBuckets_reg]
    have hmv : measuredValue c remote bucket m = none :=
      measuredValue_none_of_bucketValue_none c remote bucket m
        (bucketValue_none_of_fail c remote bucket hfail m)
    rw [hmv]
    simp
  · intro m b'
    rw [updateRemoteBuckets_reg]
    simp

/-- C4 (witness): with `cSibling`, where bucket `y` fails its count while
sibling `x` measures (10, 1000): the failing iteration changes nothing, and
the full run still publishes `x`'s file count. -/
theorem claim4_witness :
    (processBucket cSibling "a:" ExecState.init "y").reg = ExecState.init.reg
  ∧ (updateRemoteBuckets cSibling "a:" ExecState.init).reg
      (fileCountMetricName, "a:", "x") = some 10 := by
  have h := claim4_container_failure_isolated cSibling "a:" "y" ExecState.init
    (Or.inr ⟨"count failed", by rfl⟩)
  refine ⟨h.1, ?_⟩
  rw [h.2.2.2 fileCountMetricName "x"]
  decide

/-! ## Claim C5 -/

/-- C5: a remote whose Fs cannot be opened, or whose container listing
fails, contributes zero measurements that round: the registry is unchanged
at every key, exactly one error line naming the remote is recorded (and the
function returns instead of terminating the process), and a round over any
remote list containing the failing remote produces the same registry as
the round without it — the other remotes are unaffected. -/
theorem claim5_remote_failure_isolated (c : Collaborator) (remote : String)
    (s : ExecState)
    (hfail : c.newFsOk remote = false ∨
      ∃ msg, c.listDir remote = Except.error msg) :
    (updateRemoteBuckets c remote s).reg = s.reg
  ∧ (∃ e, (updateRemoteBuckets c remote s).log = s.log ++ [e] ∧
      (e = LogEntry.errorNewFsRemote remote ∨
        e = LogEntry.errorListDir remote))
  ∧ (∀ remotes1 remotes2 s0 m r b,
      (runRound c (remotes1 ++ remote :: remotes2) s0).reg (m, r, b) =
        (runRound c (remotes1 ++ remotes2) s0).reg (m, r, b)) := by
  obtain ⟨hreg, hlog⟩ := updateRemoteBuckets_fail c remote s hfail
  refine ⟨hreg, hlog, ?_⟩
  intro remotes1 remotes2 s0 m r b
  rw [runRound_reg, runRound_reg]
  by_cases hr : r = remote
  · subst hr
    have hmv : measuredValue c r b m = none :=
      measuredValue_none_of_remoteFail c r hfail b m
    rw [hmv]
    simp
  · simp [List.mem_append, List.mem_cons, hr]

/-- C5 (witness): with `cDown`, where remote `b:` cannot be opened: a run
on `b:` changes nothing, and a round over `[a:, b:]` leaves `a:`'s size
sample exactly as a round over `[a:]` alone. -/
theorem claim5_witness :
    (updateRemoteBuckets cDown "b:" ExecState.init).reg = ExecState.init.reg
  ∧ (runRound cDown (["a:"] ++ "b:" :: []) ExecState.init).reg
        (sizeMetricName, "a:", "x") =
      (runRound cDown (["a:"] ++ []) ExecState.init).reg
        (sizeMetricName, "a:", "x") := by
  have h := claim5_remote_failure_isolated cDown "b:" ExecState.init
    (Or.inl (by rfl))
  exact ⟨h.1, h.2.2 ["a:"] [] ExecState.init sizeMetricName "a:" "x"⟩

/-! ## Claim C6 -/

/-- C6 (counterexample): gauge values are float64, so a file count of
`2 ^ 53 + 1 = 9007199254740993` — a perfectly valid uint64 — is published
as `9007199254740992`: the sample does not equal the value the counting
collaborator returned. -/
theorem claim6_counterexample :
    cBig.count ("a:" ++ "x") = Except.ok (9007199254740993, 1000, 0)
  ∧ (runRound cBig ["a:"] ExecState.init).reg
      (fileCountMetricName, "a:", "x") = some 9007199254740992
  ∧ (9007199254740992 : Nat) ≠ 9007199254740993 := by
  refine ⟨by rfl, ?_, by decide⟩
  decide

/-- C6 (amended): for every successful (remote, container) measurement in
a round, the published size and file-count gauges for that label pair equal
the float64 conversions of the `totalBytes` and `count` values the
counting collaborator returned — exactly equal whenever the value is at
most `2 ^ 53`. -/
theorem claim6_gauge_values_amended (c : Collaborator)
    (remotes : List String) (s : ExecState) (r b : String)
    (files size dcount : Nat) (dirs : List String)
    (hmem : r ∈ remotes) (hfs : c.newFsOk r = true)
    (hls : c.listDir r = Except.ok dirs) (hb : b ∈ dirs)
    (hbfs : c.newFsOk (r ++ b) = true)
    (hcnt : c.count (r ++ b) = Except.ok (files, size, dcount)) :
    (runRound c remotes s).reg (sizeMetricName, r, b) =
        some (float64OfNat size)
  ∧ (runRound c remotes s).reg (fileCountMetricName, r, b) =
        some (float64OfNat files)
  ∧ (size ≤ 2 ^ 53 → float64OfNat size = size)
  ∧ (files ≤ 2 ^ 53 → float64OfNat files = files) := by
  have hbv : ∀ m, bucketValue c r b m =
      (if m = sizeMetricName then some (float64OfNat size)
       else if m = fileCountMetricName then some (float64OfNat files)
       else none) := by
    intro m
    unfold bucketValue
    rw [if_pos hbfs, hcnt]
  have hmv : ∀ m, measuredValue c r b m = bucketValue c r b m := by
    intro m
    unfold measuredValue
    rw [if_pos hfs, hls]
    dsimp only
    rw [if_pos hb]
  have hsize : measuredValue c r b sizeMetricName =
      some (float64OfNat size) := by
    rw [hmv, hbv]
    simp
  have hfiles : measuredValue c r b fileCountMetricName =
      some (float64OfNat files) := by
    rw [hmv, hbv]
    simp [Ne.symm sizeMetricName_ne_fileCountMetricName]
  refine ⟨?_, ?_, float64OfNat_exact size, float64OfNat_exact files⟩
  · rw [runRound_reg, hsize]
    simp [hmem]
  · rw [runRound_reg, hfiles]
    simp [hmem]

/-- C6 (witness): instantiating the amended claim on `cSimple`: bucket `x`
of `a:` measures (10 files, 1000 bytes), both below `2 ^ 53`, so the
published size sample is exactly 1000. -/
theorem claim6_witness :
    (runRound cSimple ["a:"] ExecState.init).reg
      (sizeMetricName, "a:", "x") = some 1000 := by
  have h := claim6_gauge_values_amended cSimple ["a:"] ExecState.init
    "a:" "x" 10 1000 0 ["x"] (by simp) (by rfl) (by rfl) (by simp)
    (by rfl) (by rfl)
  exact h.1.trans (by decide)

/-! ## Claim C7 -/

/-- C7: re-polling with an unchanged dataset is idempotent: two consecutive
rounds with identical collaborator responses leave the registry exactly as
the first round did — values are replaced, never accumulated. -/
theorem claim7_idempotent_rounds (c : Collaborator) (remotes : List String)
    (s : ExecState) :
    (runRound c remotes (runRound c remotes s)).reg =
      (runRound c remotes s).reg := by
  funext k
  obtain ⟨m, r, b⟩ := k
  rw [runRound_reg c remotes (runRound c remotes s) m r b]
  by_cases h : r ∈ remotes ∧ (measuredValue c r b m).isSome = true
  · rw [if_pos h, runRound_reg, if_pos h]
  · rw [if_neg h]

/-! ## Claim C8 -/

/-- C8: the identifier on which a container's counting handle is opened is
exactly the string concatenation of the parent remote identifier and the
container's relative name: starting from a fresh call trace, `fs.NewFs` is
invoked precisely on the remote itself and on `remote ++ b` for listed
containers `b`, and `operations.Count` precisely on `remote ++ b` for the
listed containers whose handle opened. -/
theorem claim8_bucket_identifier_concatenation (c : Collaborator)
    (remote id : String) :
    (OracleCall.countOn id ∈
        (updateRemoteBuckets c remote ExecState.init).calls ↔
      c.newFsOk remote = true ∧
        ∃ dirs, c.listDir remote = Except.ok dirs ∧
          ∃ b ∈ dirs, id = remote ++ b ∧ c.newFsOk (remote ++ b) = true)
  ∧ (OracleCall.newFs id ∈
        (updateRemoteBuckets c remote ExecState.init).calls ↔
      id = remote ∨ (c.newFsOk remote = true ∧
        ∃ dirs, c.listDir remote = Except.ok dirs ∧
          ∃ b ∈ dirs, id = remote ++ b)) := by
  rw [updateRemoteBuckets_calls]
  have hinit : (ExecState.init).calls = [] := rfl
  rw [hinit]
  by_cases hfs : c.newFsOk remote
  · rw [if_pos hfs]
    cases hls : c.listDir remote with
    | error e =>
      dsimp only
      constructor
      · simp [hls]
      · simp [hls]
    | ok dirs =>
      dsimp only
      constructor
      · rw [List.nil_append]
        simp only [List.mem_cons, countOn_mem_dirsCalls, hls, hfs]
        simp
      · rw [List.nil_append]
        simp only [List.mem_cons, newFs_mem_dirsCalls, hls, hfs]
        simp
  · rw [if_neg hfs]
    constructor
    · simp [hfs]
    · simp [hfs]

/-- C8 (witness): on `cSimple`, the counting handle for bucket `x` of
remote `a:` is opened on exactly `"a:" ++ "x" = "a:x"`. -/
theorem claim8_witness :
    OracleCall.countOn "a:x" ∈
      (updateRemoteBuckets cSimple "a:" ExecState.init).calls :=
  (claim8_bucket_identifier_concatenation cSimple "a:" "a:x").1.mpr
    ⟨by rfl, ["x"], by rfl, "x", by simp, by decide, by rfl⟩

/-! ## Claim C9 -/

/-- C9: the scheduler dispatches exactly one poll round immediately at
startup — its first observable event, before the first wait — and then
exactly one round per ticker fire, the i-th at one period after the
previous; the scheduler's initial state is Polling. -/
theorem claim9_scheduler_rounds (startAt period timeout : Nat)
    (remotes : List String) (n : Nat) :
    (schedulerRun startAt period timeout remotes n).head? =
        some (SchedEvent.dispatch (dispatchRound startAt timeout remotes))
  ∧ (schedulerRun startAt period timeout remotes n).countP isDispatch = n + 1
  ∧ dispatchTimesOf (schedulerRun startAt period timeout remotes n) =
      startAt :: (List.range n).map (fun i => startAt + (i + 1) * period)
  ∧ initialSchedPhase = SchedPhase.polling := by
  refine ⟨rfl, ?_, ?_, rfl⟩
  · rw [schedulerRun, List.countP_cons]
    rw [schedulerLoop_dispatch_count period timeout remotes n startAt]
    simp [isDispatch]
  · rw [schedulerRun]
    have hstep : dispatchTimesOf
        (SchedEvent.dispatch (dispatchRound startAt timeout remotes) ::
          schedulerLoop startAt period timeout remotes n) =
        startAt ::
          dispatchTimesOf (schedulerLoop startAt period timeout remotes n) := by
      simp [dispatchTimesOf, dispatchRound]
    rw [hstep, schedulerLoop_dispatchTimes period timeout remotes n startAt]

/-! ## Claim C10 -/

/-- C10: for every non-empty `-remote` flag value, the configured remote
list is exactly the comma-split fields each trimmed of leading and
trailing whitespace, in order, with fields that trim to the empty string
kept (the list length always equals the number of comma-separated fields);
only an entirely empty flag value is fatal. -/
theorem claim10_remote_flag_parsing (v : String) :
    (configureRemotes v = none ↔ v = "")
  ∧ configureRemotes v =
      (if v = "" then none else some ((goSplitComma v).map goTrimSpace))
  ∧ (∀ l, configureRemotes v = some l →
      l.length = (goSplitComma v).length) := by
  refine ⟨?_, ?_, ?_⟩
  · unfold configureRemotes
    by_cases hv : v = ""
    · simp [hv]
    · simp [hv]
  · unfold configureRemotes
    by_cases hv : v = ""
    · simp [hv]
    · rw [if_neg hv, if_neg hv, parseRemotes_eq_map]
  · intro l hl
    unfold configureRemotes at hl
    by_cases hv : v = ""
    · rw [if_pos hv] at hl
      exact absurd hl (by simp)
    · rw [if_neg hv] at hl
      have : parseRemotes v = l := by
        injection hl
      rw [← this, parseRemotes_eq_map, List.length_map]

/-- C10 (witness): `"a:, ,b:"` parses to `["a:", "", "b:"]` — the
whitespace-only middle field is kept as an empty-string remote — while the
empty flag value is fatal. -/
theorem claim10_witness :
    configureRemotes "a:, ,b:" = some ["a:", "", "b:"]
  ∧ configureRemotes "" = none := by
  constructor
  · rw [(claim10_remote_flag_parsing "a:, ,b:").2.1]
    decide
  · exact (claim10_remote_flag_parsing "").1.mpr rfl

end RcloneExporter
